import Mathlib

/-!
Verification of the yaww GDI surface module of the chalkboard repository
(`src/yaww/mod.rs`): the style state, resource caches, submission protocol,
command queue, and residual-state lifecycle.

The module is embedded shallowly: the mutable `YawwGdiSurfaceResidual` is a
record threaded through every operation, the native yaww backend is a record
of fallible functions (the send of a directive and the `wait()` on its task
are collapsed into one `Except`), and every native call made by an operation
is recorded in an event log so that "which backend calls happened, and in
which order" is part of each operation's result.  `f32` coordinates are
idealized as rationals; `cos`/`sin` are passed as explicit function
parameters where arc geometry needs them.
-/

namespace Chalkboard

/-- A color, keyed at full precision: four rational channels standing in for
the four `f32` channels of `chalkboard::Color`. -/
abbrev Color := ℚ × ℚ × ℚ × ℚ

/-- An opaque native pen handle (`yaww::pen::Pen`). -/
abbrev Pen := Nat

/-- An opaque native brush handle (`yaww::brush::Brush`). -/
abbrev Brush := Nat

/-- The errors of `crate::Result` this module can produce or propagate. -/
inductive Err where
  | staticMsg
  | notSupported
  | backend (code : Nat)
deriving DecidableEq

/-- A queued `Task<yaww::Result<()>>`, represented by the outcome its
`wait()` will eventually produce. -/
abbrev Task := Except Err Unit

/-- One entry of the log: a native backend call made by the module (plus the
`log::warn!` diagnostic of the empty-brush fill path). -/
inductive Event where
  | getStockObject
  | createPen (c : Color) (w : Nat)
  | createSolidBrush (c : Color)
  | selectObject (h : Nat)
  | warnEmptyBrush
  | moveTo (x y : Int)
  | lineTo (x y : Int)
  | rectangleCall (x1 y1 x2 y2 : Int)
  | arcCall (x1 y1 x2 y2 asx asy aex aey : Int)
  | deleteGdi (h : Nat)
deriving DecidableEq

/-- The yaww backend: every native entry point `src/yaww/mod.rs` calls, with
a fixed (deterministic) outcome per call.  Draw-primitive calls return the
pending task that is appended to the command queue. -/
structure Backend where
  stockNullBrush : Except Err Brush
  createPen : Color → Nat → Except Err Pen
  createSolidBrush : Color → Except Err Brush
  selectObject : Nat → Except Err Unit
  deleteGdi : Nat → Except Err Unit
  moveTo : Int → Int → Except Err Task
  lineTo : Int → Int → Except Err Task
  rectangle : Int → Int → Int → Int → Except Err Task
  arc : Int → Int → Int → Int → Int → Int → Int → Int → Except Err Task

deriving instance DecidableEq for Except

/-- `YawwGdiSurfaceResidual`: stroke color (`pen`), fill color (`brush`),
cached clear brush, line width, pending task queue, and the two resource
caches.  The `HashMap`s are modeled as association lists with unique keys
(lookup / replace-or-insert below). -/
structure Residual where
  pen : Option Color
  brush : Option Color
  clear_brush : Option Brush
  width : Nat
  task_queue : List Task
  pens : List ((Color × Nat) × Pen)
  brushes : List (Color × Brush)
deriving DecidableEq

/-- Association-list lookup, modelling `HashMap::get`. -/
def lookupAssoc {α β : Type} [DecidableEq α] : List (α × β) → α → Option β
  | [], _ => none
  | (k, v) :: rest, key => if key = k then some v else lookupAssoc rest key

/-- Association-list replace-or-insert, modelling `HashMap::insert`. -/
def insertAssoc {α β : Type} [DecidableEq α] : List (α × β) → α → β → List (α × β)
  | [], key, v => [(key, v)]
  | (k, w) :: rest, key, v =>
      if key = k then (key, v) :: rest else (k, w) :: insertAssoc rest key v

/-- The result of one fallible operation on the surface: its `crate::Result`,
the residual state afterwards, and the native calls it made, in order. -/
abbrev Outcome (α : Type) := Except Err α × Residual × List Event

/-- Sequencing of two fallible steps with the `?` operator: an error in the
first step aborts, otherwise the state is threaded and the native-call logs
are concatenated. -/
def bindO {α β : Type} (x : Outcome α) (f : α → Residual → Outcome β) : Outcome β :=
  match x with
  | (.error e, r, ev) => (.error e, r, ev)
  | (.ok a, r, ev) =>
      let out := f a r
      (out.1, out.2.1, ev ++ out.2.2)

/-- The floor of a rational, written out on the numerator and denominator so
that it evaluates in the kernel (`ratFloor_eq_floor` below identifies it with
`Int.floor`). -/
def ratFloor (q : ℚ) : Int := q.num / (q.den : Int)

/-- The ceiling of a rational (`ratCeil_eq_ceil` below identifies it with
`Int.ceil`); `f32::ceil` idealized on ℚ. -/
def ratCeil (q : ℚ) : Int := -ratFloor (-q)

/-- `f32 as i32`: truncation toward zero (idealized on ℚ). -/
def trunc (q : ℚ) : Int := if 0 ≤ q then ratFloor q else ratCeil q

/-- `YawwGdiSurface::clear_brush`: return the cached clear brush, or obtain
the `NullBrush` stock object, cache it, and return it. -/
def clear_brush (B : Backend) (r : Residual) : Outcome Brush :=
  match r.clear_brush with
  | some cb => (.ok cb, r, [])
  | none =>
      match B.stockNullBrush with
      | .error e => (.error e, r, [.getStockObject])
      | .ok cb => (.ok cb, { r with clear_brush := some cb }, [.getStockObject])

/-- `YawwGdiSurface::get_pen_from_color`: look up `(color, width)` in the pen
cache; on a miss create the pen via the backend, insert it, and return it. -/
def get_pen_from_color (B : Backend) (r : Residual) (color : Color) : Outcome Pen :=
  match lookupAssoc r.pens (color, r.width) with
  | some o => (.ok o, r, [])
  | none =>
      match B.createPen color r.width with
      | .error e => (.error e, r, [.createPen color r.width])
      | .ok pen =>
          (.ok pen, { r with pens := insertAssoc r.pens (color, r.width) pen },
            [.createPen color r.width])

/-- The brush resolution inlined in the `Fill` arm of `submit` (lines
193–202 of `src/yaww/mod.rs`): look up the color in the brush cache; on a
miss create a solid brush, insert it, and return it. -/
def get_brush_from_color (B : Backend) (r : Residual) (f : Color) : Outcome Brush :=
  match lookupAssoc r.brushes f with
  | some o => (.ok o, r, [])
  | none =>
      match B.createSolidBrush f with
      | .error e => (.error e, r, [.createSolidBrush f])
      | .ok brush =>
          (.ok brush, { r with brushes := insertAssoc r.brushes f brush },
            [.createSolidBrush f])

/-- `self.dc.select_object(self.thread, h)?.wait()?`. -/
def selectStep (B : Backend) (r : Residual) (h : Nat) : Outcome Unit :=
  match B.selectObject h with
  | .error e => (.error e, r, [.selectObject h])
  | .ok () => (.ok (), r, [.selectObject h])

/-- The per-call draw mode (`DrawType` in the source). -/
inductive DrawType where
  | Stroke
  | Fill
deriving DecidableEq

/-- `YawwGdiSurface::submit`: the submission protocol run before every
primitive.  `Stroke`: select the clear brush, then, if a stroke color is
set, resolve and select its pen.  `Fill`: if a fill color is set, resolve
and select its pen, then resolve and select its brush; otherwise warn and
do nothing. -/
def submit (B : Backend) (r : Residual) (draw : DrawType) : Outcome Unit :=
  match draw with
  | .Stroke =>
      bindO (clear_brush B r) fun cb r1 =>
        bindO (selectStep B r1 cb) fun _ r2 =>
          match r2.pen with
          | none => (.ok (), r2, [])
          | some s =>
              bindO (get_pen_from_color B r2 s) fun pen r3 =>
                selectStep B r3 pen
  | .Fill =>
      match r.brush with
      | some f =>
          bindO (get_pen_from_color B r f) fun pen r1 =>
            bindO (selectStep B r1 pen) fun _ r2 =>
              bindO (get_brush_from_color B r2 f) fun brush r3 =>
                selectStep B r3 brush
      | none => (.ok (), r, [.warnEmptyBrush])

/-- `YawwGdiSurface::line`: issue `move_to` and `line_to` and append both
pending tasks to the command queue (nothing is queued if either send
fails, matching the array construction in the source). -/
def line (B : Backend) (r : Residual) (x1 y1 x2 y2 : ℚ) : Outcome Unit :=
  match B.moveTo (trunc x1) (trunc y1) with
  | .error e => (.error e, r, [.moveTo (trunc x1) (trunc y1)])
  | .ok t1 =>
      match B.lineTo (trunc x2) (trunc y2) with
      | .error e =>
          (.error e, r, [.moveTo (trunc x1) (trunc y1), .lineTo (trunc x2) (trunc y2)])
      | .ok t2 =>
          (.ok (), { r with task_queue := r.task_queue ++ [t1, t2] },
            [.moveTo (trunc x1) (trunc y1), .lineTo (trunc x2) (trunc y2)])

/-- `YawwGdiSurface::rectangle`: issue one native `rectangle` call and queue
its pending task. -/
def rectangle (B : Backend) (r : Residual) (x y width height : ℚ) : Outcome Unit :=
  match B.rectangle (trunc x) (trunc y) (trunc (x + width)) (trunc (y + height)) with
  | .error e =>
      (.error e, r, [.rectangleCall (trunc x) (trunc y) (trunc (x + width)) (trunc (y + height))])
  | .ok t =>
      (.ok (), { r with task_queue := r.task_queue ++ [t] },
        [.rectangleCall (trunc x) (trunc y) (trunc (x + width)) (trunc (y + height))])

/-- A `lyon_geom::Arc` as consumed by `calc_posns` (`x_rotation` is ignored
by the source and omitted). -/
structure ArcQ where
  cx : ℚ
  cy : ℚ
  rx : ℚ
  ry : ℚ
  start_angle : ℚ
  sweep_angle : ℚ
deriving DecidableEq

/-- The eight integer coordinates of a native GDI `Arc` call. -/
structure Posns where
  x1 : Int
  y1 : Int
  x2 : Int
  y2 : Int
  asx : Int
  asy : Int
  aex : Int
  aey : Int
deriving DecidableEq

/-- `calc_posns`: bounding box corners at `center ± radii` (truncated by the
`as i32` casts), and start/end points at `center + radii · (cos θ, sin θ)`
rounded up, where the source evaluates the start point at `start_angle` and
the end point at `sweep_angle`.  `cosf`/`sinf` are the `f32` cosine/sine. -/
def calc_posns (cosf sinf : ℚ → ℚ) (a : ArcQ) : Posns :=
  { x1 := trunc (a.cx - a.rx)
    y1 := trunc (a.cy - a.ry)
    x2 := trunc (a.cx + a.rx)
    y2 := trunc (a.cy + a.ry)
    asx := ratCeil (a.cx + cosf a.start_angle * a.rx)
    asy := ratCeil (a.cy + sinf a.start_angle * a.ry)
    aex := ratCeil (a.cx + cosf a.sweep_angle * a.rx)
    aey := ratCeil (a.cy + sinf a.sweep_angle * a.ry) }

/-- Modelled from the spec's words (§4.5), for comparison with `calc_posns`:
identical except that the end point is evaluated at `θ = start_angle +
sweep_angle`. -/
def calc_posns_spec (cosf sinf : ℚ → ℚ) (a : ArcQ) : Posns :=
  { x1 := trunc (a.cx - a.rx)
    y1 := trunc (a.cy - a.ry)
    x2 := trunc (a.cx + a.rx)
    y2 := trunc (a.cy + a.ry)
    asx := ratCeil (a.cx + cosf a.start_angle * a.rx)
    asy := ratCeil (a.cy + sinf a.start_angle * a.ry)
    aex := ratCeil (a.cx + cosf (a.start_angle + a.sweep_angle) * a.rx)
    aey := ratCeil (a.cy + sinf (a.start_angle + a.sweep_angle) * a.ry) }

/-- `YawwGdiSurface::arc`: convert the arc through `calc_posns`, issue one
native `arc` call, and queue its pending task. -/
def arc (B : Backend) (cosf sinf : ℚ → ℚ) (r : Residual)
    (xcenter ycenter xradius yradius start_angle sweep_angle : ℚ) : Outcome Unit :=
  let p := calc_posns cosf sinf
    { cx := xcenter, cy := ycenter, rx := xradius, ry := yradius,
      start_angle := start_angle, sweep_angle := sweep_angle }
  match B.arc p.x1 p.y1 p.x2 p.y2 p.asx p.asy p.aex p.aey with
  | .error e => (.error e, r, [.arcCall p.x1 p.y1 p.x2 p.y2 p.asx p.asy p.aex p.aey])
  | .ok t =>
      (.ok (), { r with task_queue := r.task_queue ++ [t] },
        [.arcCall p.x1 p.y1 p.x2 p.y2 p.asx p.asy p.aex p.aey])

/-- The `try_for_each(|t| { t.wait()?; Ok(()) })` of `flush`, instrumented
with the list of tasks actually awaited, in order. -/
def drainTasks : List Task → Except Err Unit × List Task
  | [] => (.ok (), [])
  | t :: rest =>
      match t with
      | .ok () =>
          let out := drainTasks rest
          (out.1, t :: out.2)
      | .error e => (.error e, [t])

/-- `flush`: drain the queue (the `Vec::drain` empties it even when the
iteration stops early) and await each task in FIFO order, stopping at the
first failure.  The third component lists the tasks that were awaited. -/
def flush (r : Residual) : Except Err Unit × Residual × List Task :=
  let out := drainTasks r.task_queue
  (out.1, { r with task_queue := [] }, out.2)

/-- A `try_for_each` of `delete_gdi` sends over a list of handles: stops at
the first failing send, logging every attempted deletion. -/
def deleteAll (B : Backend) : List Nat → Except Err Unit × List Event
  | [] => (.ok (), [])
  | h :: rest =>
      match B.deleteGdi h with
      | .error e => (.error e, [.deleteGdi h])
      | .ok () =>
          let out := deleteAll B rest
          (out.1, .deleteGdi h :: out.2)

/-- The cached pen handles, in cache order (`pens.into_iter()` values). -/
def penHandles (r : Residual) : List Nat := r.pens.map Prod.snd

/-- The cached brush handles, in cache order (`brushes.into_iter()` values). -/
def brushHandles (r : Residual) : List Nat := r.brushes.map Prod.snd

/-- `YawwGdiSurfaceResidual::free`: delete every cached pen, then every
cached brush, with `?` after the pen pass (the clear brush is dropped
without a deletion call, as in the source's destructuring). -/
def free (B : Backend) (r : Residual) : Except Err Unit × List Event :=
  match deleteAll B (penHandles r) with
  | (.error e, ev) => (.error e, ev)
  | (.ok _, ev1) =>
      let out := deleteAll B (brushHandles r)
      (out.1, ev1 ++ out.2)

/-- `Surface::draw_line`. -/
def draw_line (B : Backend) (r : Residual) (x1 y1 x2 y2 : ℚ) : Outcome Unit :=
  bindO (submit B r .Stroke) fun _ r1 => line B r1 x1 y1 x2 y2

/-- `Surface::draw_rectangle`. -/
def draw_rectangle (B : Backend) (r : Residual) (x y width height : ℚ) : Outcome Unit :=
  bindO (submit B r .Stroke) fun _ r1 => rectangle B r1 x y width height

/-- `Surface::fill_rectangle`. -/
def fill_rectangle (B : Backend) (r : Residual) (x y width height : ℚ) : Outcome Unit :=
  bindO (submit B r .Fill) fun _ r1 => rectangle B r1 x y width height

/-- `Surface::draw_arc`: submit `Stroke`, then emit the arc with the radii
as given. -/
def draw_arc (B : Backend) (cosf sinf : ℚ → ℚ) (r : Residual)
    (xcenter ycenter xradius yradius start_angle sweep_angle : ℚ) : Outcome Unit :=
  bindO (submit B r .Stroke) fun _ r1 =>
    arc B cosf sinf r1 xcenter ycenter xradius yradius start_angle sweep_angle

/-- `Surface::fill_arc`: submit `Fill`, then emit the arc — the source
passes `ycenter` in the y-radius position (`self.arc(xcenter, ycenter,
xradius, ycenter, ...)`, line 547). -/
def fill_arc (B : Backend) (cosf sinf : ℚ → ℚ) (r : Residual)
    (xcenter ycenter xradius yradius start_angle sweep_angle : ℚ) : Outcome Unit :=
  bindO (submit B r .Fill) fun _ r1 =>
    arc B cosf sinf r1 xcenter ycenter xradius ycenter start_angle sweep_angle

/-- Keep only the native `arc` calls of an event log. -/
def arcCalls (evs : List Event) : List Event :=
  evs.filter fun e =>
    match e with
    | .arcCall _ _ _ _ _ _ _ _ => true
    | _ => false

/-- A live `YawwGdiSurface`: a drawing-context handle plus the
`Option<YawwGdiSurfaceResidual>` field. -/
structure SurfaceM where
  dc : Nat
  residual : Option Residual
deriving DecidableEq

/-- `YawwGdiSurface::from_residual`. -/
def from_residual (dc : Nat) (r : Residual) : SurfaceM :=
  { dc := dc, residual := some r }

/-- The initial residual built by `YawwGdiSurface::new`. -/
def emptyResidual : Residual :=
  { pen := none, brush := none, clear_brush := none, width := 0,
    task_queue := [], pens := [], brushes := [] }

/-- `YawwGdiSurface::new`: `from_residual` with the empty residual. -/
def SurfaceM.new (dc : Nat) : SurfaceM :=
  from_residual dc emptyResidual

/-- The field clearing performed by `into_residual`. -/
def detach (r : Residual) : Residual :=
  { r with pen := none, brush := none, clear_brush := none }

/-- `YawwGdiSurface::into_residual`: unwrap the residual (`none` models the
panic) and clear the transient selection fields. -/
def into_residual (s : SurfaceM) : Option Residual :=
  match s.residual with
  | none => none
  | some r => some (detach r)

/-- `YawwGdiSurface::residual`: the accessor whose
`expect("Already dropped?!?!")` is modelled by `none`. -/
def residualAccess (s : SurfaceM) : Option Residual :=
  s.residual

/-- Run a residual-level operation through the `residual()` accessor, as
every public method does; `none` is the panic branch of the accessor. -/
def liftOp (f : Residual → Outcome Unit) (s : SurfaceM) :
    Option (Except Err Unit × SurfaceM × List Event) :=
  match residualAccess s with
  | none => none
  | some r =>
      let out := f r
      some (out.1, { s with residual := some out.2.1 }, out.2.2)

/-- The surfaces a caller can actually hold: those built by `new` or
`from_residual`, and those reached by running an operation through the
`residual()` accessor.  `into_residual` consumes the surface and yields no
surface, so it contributes no step. -/
inductive ReachableSurface : SurfaceM → Prop where
  | attach (dc : Nat) (r : Residual) : ReachableSurface (from_residual dc r)
  | fresh (dc : Nat) : ReachableSurface (SurfaceM.new dc)
  | step (s : SurfaceM) (f : Residual → Outcome Unit) (res : Except Err Unit)
      (s' : SurfaceM) (ev : List Event) :
      ReachableSurface s → liftOp f s = some (res, s', ev) → ReachableSurface s'

/-! Concrete fixtures used by the witnesses and counterexamples. -/

/-- A backend on which every native call succeeds: the stock null brush is
handle `100`, created pens are handle `1`, created brushes handle `2`, and
every draw primitive returns an immediately successful task. -/
def okBackend : Backend :=
  { stockNullBrush := .ok 100
    createPen := fun _ _ => .ok 1
    createSolidBrush := fun _ => .ok 2
    selectObject := fun _ => .ok ()
    deleteGdi := fun _ => .ok ()
    moveTo := fun _ _ => .ok (.ok ())
    lineTo := fun _ _ => .ok (.ok ())
    rectangle := fun _ _ _ _ => .ok (.ok ())
    arc := fun _ _ _ _ _ _ _ _ => .ok (.ok ()) }

/-- A sample color. -/
def c0 : Color := (0, 0, 0, 0)

/-- The residual after resolving the pen for `(c0, width 0)` on the empty
residual against `okBackend`. -/
def penCachedResidual : Residual :=
  { emptyResidual with pens := [((c0, 0), 1)] }

/-- A residual with both style colors set and both caches warm: stroke and
fill color `c0`, clear brush `5` cached, pen `1` and brush `2` cached. -/
def styledResidual : Residual :=
  { pen := some c0, brush := some c0, clear_brush := some 5, width := 0,
    task_queue := [], pens := [((c0, 0), 1)], brushes := [(c0, 2)] }

/-- `okBackend`, except that deleting handle `1` fails. -/
def failingDeleteBackend : Backend :=
  { okBackend with deleteGdi := fun h => if h = 1 then .error (.backend 7) else .ok () }

/-- A trigonometry argument for the arc fixtures: both `cos` and `sin`
constantly `0`. -/
def zeroTrig : ℚ → ℚ := fun _ => 0

/-- A trigonometry argument that distinguishes angles: the identity. -/
def idTrig : ℚ → ℚ := fun x => x

/-- The arc input of the `calc_posns` end-angle counterexample: unit radii,
center at the origin, start angle `1`, sweep angle `1`. -/
def arcC4 : ArcQ :=
  { cx := 0, cy := 0, rx := 1, ry := 1, start_angle := 1, sweep_angle := 1 }

/-- A residual whose queue holds a succeeding task, a failing task, and a
further succeeding task. -/
def queuedResidual : Residual :=
  { emptyResidual with task_queue := [.ok (), .error (.backend 3), .ok ()] }

/-- The residual after `draw_line` on the empty residual against
`okBackend`: the clear brush is cached and two tasks are queued. -/
def lineResidual : Residual :=
  { emptyResidual with clear_brush := some 100, task_queue := [.ok (), .ok ()] }

/-- The residual after that `draw_line` and then a `draw_rectangle`. -/
def lineRectResidual : Residual :=
  { emptyResidual with clear_brush := some 100, task_queue := [.ok (), .ok (), .ok ()] }

/-- The native calls of that `draw_line`. -/
def lineEvents : List Event :=
  [.getStockObject, .selectObject 100, .moveTo 0 0, .lineTo 1 1]

/-- The native calls of that `draw_rectangle`. -/
def rectEvents : List Event :=
  [.selectObject 100, .rectangleCall 0 0 1 1]

/-! Sanity lemmas identifying the hand-rolled rounding functions with
Mathlib's floor and ceiling, and helper lemmas about the caches. -/

theorem ratFloor_eq_floor (q : ℚ) : ratFloor q = ⌊q⌋ := Rat.floor_def.symm

theorem ratCeil_eq_ceil (q : ℚ) : ratCeil q = ⌈q⌉ := by
  rw [ratCeil, ratFloor_eq_floor, Int.floor_neg, neg_neg]

theorem lookupAssoc_insertAssoc_self {α β : Type} [DecidableEq α]
    (l : List (α × β)) (k : α) (v : β) :
    lookupAssoc (insertAssoc l k v) k = some v := by
  induction l with
  | nil => simp [insertAssoc, lookupAssoc]
  | cons hd tl ih =>
      obtain ⟨k', v'⟩ := hd
      by_cases h : k = k'
      · simp [insertAssoc, lookupAssoc, h]
      · simp [insertAssoc, lookupAssoc, h, ih]

/-- C5: two consecutive pen resolutions for the same color on the same cache
return the same handle with no native call in between: the first call caches
the pen (creating it exactly once when the key was absent, reusing it with
no backend call when present) and the second is a pure cache hit. -/
theorem pen_cache_created_once (B : Backend) (r : Residual) (c : Color)
    (p : Pen) (r1 : Residual) (ev1 : List Event)
    (h : get_pen_from_color B r c = (.ok p, r1, ev1)) :
    get_pen_from_color B r1 c = (.ok p, r1, []) ∧
    lookupAssoc r1.pens (c, r1.width) = some p ∧
    (lookupAssoc r.pens (c, r.width) = none → ev1 = [.createPen c r.width]) ∧
    (∀ q, lookupAssoc r.pens (c, r.width) = some q → p = q ∧ r1 = r ∧ ev1 = []) := by
  unfold get_pen_from_color at h
  cases hl : lookupAssoc r.pens (c, r.width) with
  | some q =>
      rw [hl] at h
      obtain ⟨hq, hr, hev⟩ := by simpa using h
      subst hq hr hev
      refine ⟨?_, hl, ?_, ?_⟩
      · unfold get_pen_from_color
        rw [hl]
      · intro hn; simp at hn
      · intro q' hq'
        injection hq' with hq'
        exact ⟨hq', rfl, rfl⟩
  | none =>
      rw [hl] at h
      cases hcp : B.createPen c r.width with
      | error e => rw [hcp] at h; simp at h
      | ok pen =>
          rw [hcp] at h
          obtain ⟨hq, hr, hev⟩ := by simpa using h
          subst hq hr hev
          refine ⟨?_, ?_, fun _ => rfl, ?_⟩
          · simp [get_pen_from_color, lookupAssoc_insertAssoc_self]
          · simp [lookupAssoc_insertAssoc_self]
          · intro q' hq'; simp at hq'

/-- Witness for C5: resolving `c0` again on the cache produced by a first
resolution returns the same handle `1` with no backend call. -/
theorem pen_cache_created_once_witness :
    get_pen_from_color okBackend penCachedResidual c0 = (.ok 1, penCachedResidual, []) :=
  (pen_cache_created_once okBackend emptyResidual c0 1 penCachedResidual
    [Event.createPen c0 0] (by decide)).1

/-- C7: on submit(Stroke) the clear brush is resolved first — reused when
cached, created via the stock object and cached on first use — and selected
into the context; then a pen is resolved (through the cache) and selected
exactly when a stroke color is set, and no pen selection happens when the
stroke color is unset. -/
theorem submit_stroke_protocol (B : Backend) (r : Residual) :
    (∀ cb, r.clear_brush = some cb → B.selectObject cb = .ok () → r.pen = none →
       submit B r .Stroke = (.ok (), r, [.selectObject cb])) ∧
    (∀ cb, r.clear_brush = none → B.stockNullBrush = .ok cb →
       B.selectObject cb = .ok () → r.pen = none →
       submit B r .Stroke =
         (.ok (), { r with clear_brush := some cb },
           [.getStockObject, .selectObject cb])) ∧
    (∀ cb s p r1 ev1, r.clear_brush = some cb → B.selectObject cb = .ok () →
       r.pen = some s → get_pen_from_color B r s = (.ok p, r1, ev1) →
       B.selectObject p = .ok () →
       submit B r .Stroke =
         (.ok (), r1, .selectObject cb :: (ev1 ++ [.selectObject p]))) := by
  refine ⟨?_, ?_, ?_⟩
  · intro cb hcb hsel hpen
    simp [submit, clear_brush, hcb, bindO, selectStep, hsel, hpen]
  · intro cb hcb hstock hsel hpen
    simp [submit, clear_brush, hcb, hstock, bindO, selectStep, hsel, hpen]
  · intro cb s p r1 ev1 hcb hsel hpen hgp hselp
    simp [submit, clear_brush, hcb, bindO, selectStep, hsel, hpen, hgp, hselp]

/-- Witness for C7: on the empty residual the clear brush is created,
cached and selected, and no pen is selected. -/
theorem submit_stroke_protocol_witness :
    submit okBackend emptyResidual .Stroke =
      (.ok (), { emptyResidual with clear_brush := some 100 },
        [.getStockObject, .selectObject 100]) :=
  (submit_stroke_protocol okBackend emptyResidual).2.1 100 rfl rfl rfl rfl

unseal Rat.add Rat.mul Rat.sub in
/-- C1 counterexample: `fill_rectangle` with no fill color set returns
success and emits the warning, but — contrary to the claim — it still
issues the native rectangle call and enqueues its pending operation. -/
theorem fill_rectangle_no_brush_counterexample :
    (fill_rectangle okBackend emptyResidual 0 0 1 1).1 = .ok () ∧
    Event.rectangleCall 0 0 1 1 ∈ (fill_rectangle okBackend emptyResidual 0 0 1 1).2.2 ∧
    (fill_rectangle okBackend emptyResidual 0 0 1 1).2.1.task_queue ≠ [] := by
  decide

/-- C1 (amended): a fill operation with no fill color set performs no pen or
brush resolution and no selection, emits the warning diagnostic, and returns
success — but it still issues its native geometry call and enqueues the
pending operation, exactly as a configured fill would. -/
theorem fill_rectangle_no_brush_behavior (B : Backend) (r : Residual)
    (x y w h : ℚ) (t : Task)
    (hb : r.brush = none)
    (ht : B.rectangle (trunc x) (trunc y) (trunc (x + w)) (trunc (y + h)) = .ok t) :
    fill_rectangle B r x y w h =
      (.ok (), { r with task_queue := r.task_queue ++ [t] },
        [.warnEmptyBrush,
          .rectangleCall (trunc x) (trunc y) (trunc (x + w)) (trunc (y + h))]) := by
  simp [fill_rectangle, submit, bindO, hb, rectangle, ht]

/-- Witness for C1 (amended) on the empty residual. -/
theorem fill_rectangle_no_brush_behavior_witness :
    fill_rectangle okBackend emptyResidual 0 0 1 1 =
      (.ok (), { emptyResidual with task_queue := [Except.ok ()] },
        [.warnEmptyBrush,
          .rectangleCall (trunc 0) (trunc 0) (trunc (0 + 1)) (trunc (0 + 1))]) :=
  fill_rectangle_no_brush_behavior okBackend emptyResidual 0 0 1 1 (.ok ()) rfl rfl

unseal Rat.add Rat.mul Rat.sub in
/-- C3: evaluating the code at center `(1, 2)`, radii `(3, 4)` (cos/sin held
at `0`): `fill_arc` issues its native arc call with `ycenter` in place of the
y-radius, so its eight coordinates differ from the ones `draw_arc` issues for
the same arguments — the bounding box becomes `y ∈ [0, 4]` instead of
`y ∈ [-2, 6]`. -/
theorem fill_arc_uses_ycenter_as_yradius :
    arcCalls (fill_arc okBackend zeroTrig zeroTrig styledResidual 1 2 3 4 0 0).2.2 =
      [Event.arcCall (-2) 0 4 4 1 2 1 2] ∧
    arcCalls (draw_arc okBackend zeroTrig zeroTrig styledResidual 1 2 3 4 0 0).2.2 =
      [Event.arcCall (-2) (-2) 4 6 1 2 1 2] ∧
    ¬ (Event.arcCall (-2) 0 4 4 1 2 1 2 = Event.arcCall (-2) (-2) 4 6 1 2 1 2) := by
  decide

unseal Rat.add Rat.mul Rat.sub in
/-- C4 counterexample: with a cosine that distinguishes angles, the end
point `calc_posns` computes differs from the spec's `center + radii ·
(cos, sin)` at `θ = start_angle + sweep_angle`: the code evaluates the end
point at the sweep angle alone. -/
theorem calc_posns_end_angle_counterexample :
    calc_posns idTrig zeroTrig arcC4 ≠ calc_posns_spec idTrig zeroTrig arcC4 := by
  decide

/-- C4 (amended): for every arc, the native call's bounding box corners are
`center ± radii` (truncated to integers), and the start and end points are
`center + radii · (cos θ, sin θ)` with each coordinate rounded up (ceiling),
where `θ` is the start angle for the start point and the sweep angle alone
(not start plus sweep) for the end point. -/
theorem calc_posns_formula (cosf sinf : ℚ → ℚ) (a : ArcQ) :
    (calc_posns cosf sinf a).x1 = trunc (a.cx - a.rx) ∧
    (calc_posns cosf sinf a).y1 = trunc (a.cy - a.ry) ∧
    (calc_posns cosf sinf a).x2 = trunc (a.cx + a.rx) ∧
    (calc_posns cosf sinf a).y2 = trunc (a.cy + a.ry) ∧
    (calc_posns cosf sinf a).asx = ⌈a.cx + cosf a.start_angle * a.rx⌉ ∧
    (calc_posns cosf sinf a).asy = ⌈a.cy + sinf a.start_angle * a.ry⌉ ∧
    (calc_posns cosf sinf a).aex = ⌈a.cx + cosf a.sweep_angle * a.rx⌉ ∧
    (calc_posns cosf sinf a).aey = ⌈a.cy + sinf a.sweep_angle * a.ry⌉ := by
  simp [calc_posns, ratCeil_eq_ceil]

theorem drainTasks_all_ok (l : List Task) (h : ∀ t ∈ l, t = .ok ()) :
    drainTasks l = (.ok (), l) := by
  induction l with
  | nil => rfl
  | cons t rest ih =>
      have ht := h t (by simp)
      subst ht
      simp [drainTasks, ih fun t' ht' => h t' (by simp [ht'])]

theorem drainTasks_first_error (pre : List Task) (e : Err) (post : List Task)
    (h : ∀ t ∈ pre, t = .ok ()) :
    drainTasks (pre ++ .error e :: post) = (.error e, pre ++ [.error e]) := by
  induction pre with
  | nil => rfl
  | cons t rest ih =>
      have ht := h t (by simp)
      subst ht
      simp [drainTasks, ih fun t' ht' => h t' (by simp [ht'])]

/-- C6: `flush` awaits the queued tasks in FIFO (submission) order; an
all-successful queue is awaited completely and flush succeeds; the first
failing task aborts the drain with its error, the tasks after it are never
awaited, and the queue is left empty (the remaining entries are dropped);
an empty queue flushes as a no-op returning success. -/
theorem flush_fifo_first_error (r : Residual) :
    (r.task_queue = [] → flush r = (.ok (), r, [])) ∧
    ((∀ t ∈ r.task_queue, t = .ok ()) →
       flush r = (.ok (), { r with task_queue := [] }, r.task_queue)) ∧
    (∀ pre e post, r.task_queue = pre ++ .error e :: post →
       (∀ t ∈ pre, t = .ok ()) →
       flush r = (.error e, { r with task_queue := [] }, pre ++ [.error e])) := by
  refine ⟨?_, ?_, ?_⟩
  · intro hq
    have hr : { r with task_queue := ([] : List Task) } = r := by
      cases r
      simp_all
    simp [flush, hq, drainTasks, hr]
  · intro hq
    simp [flush, drainTasks_all_ok _ hq]
  · intro pre e post hq hpre
    simp [flush, hq, drainTasks_first_error _ _ _ hpre]

/-- Witness for C6: a queue `[ok, error, ok]` flushes to the first error,
awaiting only the prefix through that error, and empties the queue. -/
theorem flush_fifo_first_error_witness :
    flush queuedResidual =
      (.error (.backend 3), { queuedResidual with task_queue := [] },
        [.ok (), .error (.backend 3)]) :=
  (flush_fifo_first_error queuedResidual).2.2 [.ok ()] (.backend 3) [.ok ()] rfl
    (by decide)

theorem deleteAll_all_ok (B : Backend) (l : List Nat)
    (h : ∀ g ∈ l, B.deleteGdi g = .ok ()) :
    deleteAll B l = (.ok (), l.map Event.deleteGdi) := by
  induction l with
  | nil => rfl
  | cons g rest ih =>
      simp [deleteAll, h g (by simp), ih fun g' hg' => h g' (by simp [hg'])]

theorem deleteAll_first_error (B : Backend) (pre : List Nat) (g : Nat)
    (post : List Nat) (e : Err)
    (hpre : ∀ x ∈ pre, B.deleteGdi x = .ok ()) (hg : B.deleteGdi g = .error e) :
    deleteAll B (pre ++ g :: post) = (.error e, (pre ++ [g]).map Event.deleteGdi) := by
  induction pre with
  | nil => simp [deleteAll, hg]
  | cons x rest ih =>
      simp [deleteAll, hpre x (by simp),
        ih fun x' hx' => hpre x' (by simp [hx'])]

/-- C2 counterexample: with a cached pen `1` whose deletion fails and a
cached brush `2`, `free` returns the pen error after attempting only that
one deletion — the brush deletion is never attempted, contrary to the
claim that every deletion is attempted before the first error is returned. -/
theorem free_short_circuits_counterexample :
    free failingDeleteBackend styledResidual = (.error (.backend 7), [Event.deleteGdi 1]) ∧
    Event.deleteGdi 2 ∉ (free failingDeleteBackend styledResidual).2 := by
  decide

/-- C2 (amended): `free` attempts the backend deletion call for the cached
pens and then the cached brushes in sequence, but short-circuits: when every
deletion succeeds it deletes each cached handle exactly once and returns
success, and otherwise it returns the first deletion error immediately,
without attempting the deletions after it. -/
theorem free_deletion_order (B : Backend) (r : Residual) :
    ((∀ g ∈ penHandles r ++ brushHandles r, B.deleteGdi g = .ok ()) →
       free B r = (.ok (), (penHandles r ++ brushHandles r).map Event.deleteGdi)) ∧
    (∀ pre g post e, penHandles r ++ brushHandles r = pre ++ g :: post →
       (∀ x ∈ pre, B.deleteGdi x = .ok ()) → B.deleteGdi g = .error e →
       free B r = (.error e, (pre ++ [g]).map Event.deleteGdi)) := by
  constructor
  · intro h
    have hp : ∀ g ∈ penHandles r, B.deleteGdi g = .ok () :=
      fun g hg => h g (by simp [hg])
    have hb : ∀ g ∈ brushHandles r, B.deleteGdi g = .ok () :=
      fun g hg => h g (by simp [hg])
    simp [free, deleteAll_all_ok B _ hp, deleteAll_all_ok B _ hb]
  · intro pre g post e hsplit hpre hg
    rcases List.append_eq_append_iff.mp hsplit.symm with ⟨mid, hpens, hmid⟩ | ⟨mid, hpre', hbr⟩
    · -- the failing handle is among the pens, or is the first brush
      cases mid with
      | nil =>
          rw [List.append_nil] at hpens
          have hbr : brushHandles r = g :: post := by simpa using hmid.symm
          have hp : ∀ x ∈ penHandles r, B.deleteGdi x = .ok () := by
            intro x hx
            rw [hpens] at hx
            exact hpre x hx
          have h1 : deleteAll B pre = (.ok (), pre.map Event.deleteGdi) := by
            rw [← hpens]
            exact deleteAll_all_ok B _ hp
          have h2 : deleteAll B (brushHandles r) = (.error e, [Event.deleteGdi g]) := by
            rw [hbr]
            simpa using deleteAll_first_error B [] g post e (by simp) hg
          simp [free, hpens, h1, h2]
      | cons m mid' =>
          simp only [List.cons_append] at hmid
          injection hmid with hgm hpost
          subst hgm
          have h1 : deleteAll B (penHandles r) =
              (.error e, (pre ++ [g]).map Event.deleteGdi) := by
            rw [hpens]
            exact deleteAll_first_error B pre g mid' e hpre hg
          simp [free, h1]
    · -- the failing handle is among the brushes
      have hp : ∀ x ∈ penHandles r, B.deleteGdi x = .ok () := by
        intro x hx
        exact hpre x (by rw [hpre']; exact List.mem_append_left _ hx)
      have hm : ∀ x ∈ mid, B.deleteGdi x = .ok () := by
        intro x hx
        exact hpre x (by rw [hpre']; exact List.mem_append_right _ hx)
      have h1 : deleteAll B (penHandles r) =
          (.ok (), (penHandles r).map Event.deleteGdi) := deleteAll_all_ok B _ hp
      have h2 : deleteAll B (brushHandles r) =
          (.error e, (mid ++ [g]).map Event.deleteGdi) := by
        rw [hbr]
        exact deleteAll_first_error B mid g post e hm hg
      simp [free, h1, h2, hpre', List.map_append, List.append_assoc]

/-- Witness for C2 (amended): on a residual with pen `1` and brush `2`
cached and every deletion succeeding, `free` deletes both and succeeds. -/
theorem free_deletion_order_witness :
    free okBackend styledResidual = (.ok (), [Event.deleteGdi 1, Event.deleteGdi 2]) :=
  (free_deletion_order okBackend styledResidual).1 (by decide)

theorem clear_brush_task_queue (B : Backend) (r : Residual) :
    (clear_brush B r).2.1.task_queue = r.task_queue := by
  cases hcb : r.clear_brush with
  | some cb => simp [clear_brush, hcb]
  | none =>
      cases hs : B.stockNullBrush with
      | error e => simp [clear_brush, hcb, hs]
      | ok cb => simp [clear_brush, hcb, hs]

theorem get_pen_from_color_task_queue (B : Backend) (r : Residual) (c : Color) :
    (get_pen_from_color B r c).2.1.task_queue = r.task_queue := by
  cases hl : lookupAssoc r.pens (c, r.width) with
  | some o => simp [get_pen_from_color, hl]
  | none =>
      cases hc : B.createPen c r.width with
      | error e => simp [get_pen_from_color, hl, hc]
      | ok pen => simp [get_pen_from_color, hl, hc]

theorem get_brush_from_color_task_queue (B : Backend) (r : Residual) (c : Color) :
    (get_brush_from_color B r c).2.1.task_queue = r.task_queue := by
  cases hl : lookupAssoc r.brushes c with
  | some o => simp [get_brush_from_color, hl]
  | none =>
      cases hc : B.createSolidBrush c with
      | error e => simp [get_brush_from_color, hl, hc]
      | ok brush => simp [get_brush_from_color, hl, hc]

theorem selectStep_task_queue (B : Backend) (r : Residual) (h : Nat) :
    (selectStep B r h).2.1.task_queue = r.task_queue := by
  cases hs : B.selectObject h with
  | error e => simp [selectStep, hs]
  | ok u => cases u; simp [selectStep, hs]

theorem bindO_task_queue {α β : Type} (x : Outcome α) (f : α → Residual → Outcome β)
    (hf : ∀ a r', (f a r').2.1.task_queue = r'.task_queue) :
    (bindO x f).2.1.task_queue = x.2.1.task_queue := by
  rcases x with ⟨res, r, ev⟩
  cases res with
  | error e => rfl
  | ok a => simpa using hf a r

/-- The submission protocol never touches the command queue. -/
theorem submit_task_queue (B : Backend) (r : Residual) (d : DrawType) :
    (submit B r d).2.1.task_queue = r.task_queue := by
  cases d with
  | Stroke =>
      unfold submit
      refine (bindO_task_queue _ _ ?_).trans (clear_brush_task_queue B r)
      intro cb r1
      refine (bindO_task_queue _ _ ?_).trans (selectStep_task_queue B r1 cb)
      intro u r2
      cases hp : r2.pen with
      | none => simp [hp]
      | some s =>
          simp only [hp]
          exact (bindO_task_queue _ _ fun pen r3 => selectStep_task_queue B r3 pen).trans
            (get_pen_from_color_task_queue B r2 s)
  | Fill =>
      unfold submit
      cases hb : r.brush with
      | none => simp [hb]
      | some f =>
          simp only [hb]
          refine (bindO_task_queue _ _ ?_).trans (get_pen_from_color_task_queue B r f)
          intro pen r1
          refine (bindO_task_queue _ _ ?_).trans (selectStep_task_queue B r1 pen)
          intro u r2
          refine (bindO_task_queue _ _ ?_).trans (get_brush_from_color_task_queue B r2 f)
          intro brush r3
          exact selectStep_task_queue B r3 brush

theorem bindO_ok {α β : Type} {x : Outcome α} {f : α → Residual → Outcome β}
    {b : β} {r2 : Residual} {ev : List Event}
    (h : bindO x f = (.ok b, r2, ev)) :
    ∃ a r1 ev1 ev2, x = (.ok a, r1, ev1) ∧ f a r1 = (.ok b, r2, ev2) ∧
      ev = ev1 ++ ev2 := by
  rcases x with ⟨res, r1, ev1⟩
  cases res with
  | error e => simp [bindO] at h
  | ok a =>
      simp only [bindO] at h
      obtain ⟨h1, h2, h3⟩ := by simpa using h
      refine ⟨a, r1, ev1, (f a r1).2.2, rfl, ?_, h3.symm⟩
      rw [← h1, ← h2]

theorem line_ok {B : Backend} {r : Residual} {x1 y1 x2 y2 : ℚ}
    {r' : Residual} {ev : List Event}
    (h : line B r x1 y1 x2 y2 = (.ok (), r', ev)) :
    ∃ t1 t2, r'.task_queue = r.task_queue ++ [t1, t2] ∧
      ev = [.moveTo (trunc x1) (trunc y1), .lineTo (trunc x2) (trunc y2)] := by
  unfold line at h
  cases h1 : B.moveTo (trunc x1) (trunc y1) with
  | error e => rw [h1] at h; simp at h
  | ok t1 =>
      rw [h1] at h
      cases h2 : B.lineTo (trunc x2) (trunc y2) with
      | error e => rw [h2] at h; simp at h
      | ok t2 =>
          rw [h2] at h
          obtain ⟨hr, hev⟩ := by simpa using h
          exact ⟨t1, t2, by rw [← hr], hev.symm⟩

theorem rectangle_ok {B : Backend} {r : Residual} {x y w h : ℚ}
    {r' : Residual} {ev : List Event}
    (hq : rectangle B r x y w h = (.ok (), r', ev)) :
    ∃ t, r'.task_queue = r.task_queue ++ [t] ∧
      ev = [.rectangleCall (trunc x) (trunc y) (trunc (x + w)) (trunc (y + h))] := by
  unfold rectangle at hq
  cases h1 : B.rectangle (trunc x) (trunc y) (trunc (x + w)) (trunc (y + h)) with
  | error e => rw [h1] at hq; simp at hq
  | ok t =>
      rw [h1] at hq
      obtain ⟨hr, hev⟩ := by simpa using hq
      exact ⟨t, by rw [← hr], hev.symm⟩

/-- C8: a successful `draw_line` issues exactly the two native calls
move-to then line-to and appends exactly their two pending operations to
the queue; a following successful `draw_rectangle` issues exactly one
native rectangle call and appends one more, leaving the three queued
pending operations in issuance order. -/
theorem draw_line_rectangle_queue_counts (B : Backend) (r : Residual)
    (x1 y1 x2 y2 gx gy gw gh : ℚ) (r1 r2 : Residual) (ev1 ev2 : List Event)
    (h1 : draw_line B r x1 y1 x2 y2 = (.ok (), r1, ev1))
    (h2 : draw_rectangle B r1 gx gy gw gh = (.ok (), r2, ev2)) :
    ∃ t1 t2 t3,
      r1.task_queue = r.task_queue ++ [t1, t2] ∧
      r2.task_queue = r.task_queue ++ [t1, t2, t3] ∧
      (∃ evS1, ev1 = evS1 ++
        [.moveTo (trunc x1) (trunc y1), .lineTo (trunc x2) (trunc y2)]) ∧
      (∃ evS2, ev2 = evS2 ++
        [.rectangleCall (trunc gx) (trunc gy) (trunc (gx + gw)) (trunc (gy + gh))]) := by
  obtain ⟨u1, rs1, evA, evL, hsub1, hline, hev1⟩ := bindO_ok h1
  obtain ⟨t1, t2, hq1, hevL⟩ := line_ok hline
  have hqs1 : rs1.task_queue = r.task_queue := by
    have hpres := submit_task_queue B r .Stroke
    rw [hsub1] at hpres
    simpa using hpres
  obtain ⟨u2, rs2, evB, evR, hsub2, hrect, hev2⟩ := bindO_ok h2
  obtain ⟨t3, hq2, hevR⟩ := rectangle_ok hrect
  have hqs2 : rs2.task_queue = r1.task_queue := by
    have hpres := submit_task_queue B r1 .Stroke
    rw [hsub2] at hpres
    simpa using hpres
  refine ⟨t1, t2, t3, ?_, ?_, ⟨evA, by rw [hev1, hevL]⟩, ⟨evB, by rw [hev2, hevR]⟩⟩
  · rw [hq1, hqs1]
  · rw [hq2, hqs2, hq1, hqs1, List.append_assoc]
    rfl

unseal Rat.add Rat.mul Rat.sub in
/-- Witness for C8: `draw_line` then `draw_rectangle` on the empty residual
against `okBackend`. -/
theorem draw_line_rectangle_queue_counts_witness :
    ∃ t1 t2 t3,
      lineResidual.task_queue = emptyResidual.task_queue ++ [t1, t2] ∧
      lineRectResidual.task_queue = emptyResidual.task_queue ++ [t1, t2, t3] ∧
      (∃ evS1, lineEvents = evS1 ++
        [.moveTo (trunc 0) (trunc 0), .lineTo (trunc 1) (trunc 1)]) ∧
      (∃ evS2, rectEvents = evS2 ++
        [.rectangleCall (trunc 0) (trunc 0) (trunc (0 + 1)) (trunc (0 + 1))]) :=
  draw_line_rectangle_queue_counts okBackend emptyResidual 0 0 1 1 0 0 1 1
    lineResidual lineRectResidual lineEvents rectEvents (by decide) (by decide)

/-- C9: `into_residual` clears exactly the transient selection fields — the
current stroke color, the current fill color, and the cached clear brush —
and preserves the pen cache, the brush cache, the line width and the pending
queue; reattaching the residual to a new context with `from_residual` keeps
it intact, and resolving a previously cached pen or brush key on it is a
pure cache hit with no backend re-creation. -/
theorem into_residual_preserves_caches (s : SurfaceM) (r : Residual)
    (hs : s.residual = some r) :
    into_residual s = some (detach r) ∧
    (detach r).pen = none ∧ (detach r).brush = none ∧
    (detach r).clear_brush = none ∧
    (detach r).pens = r.pens ∧ (detach r).brushes = r.brushes ∧
    (detach r).width = r.width ∧ (detach r).task_queue = r.task_queue ∧
    (∀ dc, (from_residual dc (detach r)).residual = some (detach r)) ∧
    (∀ B c p, lookupAssoc r.pens (c, r.width) = some p →
       get_pen_from_color B (detach r) c = (.ok p, detach r, [])) ∧
    (∀ B c b, lookupAssoc r.brushes c = some b →
       get_brush_from_color B (detach r) c = (.ok b, detach r, [])) := by
  refine ⟨?_, rfl, rfl, rfl, rfl, rfl, rfl, rfl, fun dc => rfl, ?_, ?_⟩
  · simp [into_residual, hs]
  · intro B c p hp
    simp [get_pen_from_color, detach, hp]
  · intro B c b hb
    simp [get_brush_from_color, detach, hb]

/-- Witness for C9 on a surface holding the styled residual. -/
theorem into_residual_preserves_caches_witness :
    into_residual (from_residual 0 styledResidual) = some (detach styledResidual) :=
  (into_residual_preserves_caches (from_residual 0 styledResidual) styledResidual rfl).1

/-- C10: every surface obtainable from `new` or `from_residual` by running
operations through the `residual()` accessor keeps its residual field
occupied, so the accessor's panic branch (`none` here, the
`expect("Already dropped?!?!")` in the source) is unreachable and every
lifted operation succeeds in accessing the residual. -/
theorem residual_always_some (s : SurfaceM) (h : ReachableSurface s) :
    residualAccess s ≠ none ∧ ∀ f, liftOp f s ≠ none := by
  have hsome : residualAccess s ≠ none := by
    induction h with
    | attach dc r => simp [residualAccess, from_residual]
    | fresh dc => simp [residualAccess, SurfaceM.new, from_residual]
    | step s f res s' ev hs hlift ih =>
        unfold liftOp at hlift
        cases hr : residualAccess s with
        | none => rw [hr] at hlift; cases hlift
        | some r0 =>
            rw [hr] at hlift
            obtain ⟨h1, h2, h3⟩ := by simpa using hlift
            rw [← h2]
            simp [residualAccess]
  refine ⟨hsome, fun f => ?_⟩
  unfold liftOp
  cases hr : residualAccess s with
  | none => exact absurd hr hsome
  | some r0 => simp

/-- Witness for C10 on a freshly constructed surface. -/
theorem residual_always_some_witness :
    residualAccess (SurfaceM.new 0) ≠ none :=
  (residual_always_some (SurfaceM.new 0) (ReachableSurface.fresh 0)).1

end Chalkboard
